import Mathlib

/-!
Verification of the AML transaction-monitoring pipeline (src/app.py).

The pipeline works on a pandas dataframe whose rows are transactions with
columns transaction_id, sender_id, receiver_id, amount, timestamp, location.
The function apply_rules adds the columns rule_flagged and small_txn to the
dataframe it is handed (pandas column assignment mutates the frame in place
and the function returns the same frame), and apply_ml adds ml_flagged and
suspicious.  We embed a dataframe as a list of rows; a row is a transaction
together with the optional flag columns, absent (none) until the
corresponding pipeline stage writes them.  Amounts are rationals, standing
for the real amounts of the source.  The value a pipeline function returns
is both its return value and the post-state of the dataframe object it was
handed, which is how the in-place pandas updates are reflected here.
-/

/-- Transaction record: the six input columns produced by
generate_transactions in src/app.py. -/
structure Transaction where
  transaction_id : Nat
  sender_id : Nat
  receiver_id : Nat
  amount : ℚ
  timestamp : Int
  location : String
deriving DecidableEq

/-- Row of the working dataframe: the transaction columns plus the flag
columns the pipeline adds.  A flag column is none while it has not been
written yet. -/
structure Row where
  tx : Transaction
  rule_flagged : Option Nat
  small_txn : Option Bool
  ml_flagged : Option Nat
  suspicious : Option Nat
deriving DecidableEq

/-- A freshly generated dataframe row: no flag column exists yet. -/
def Row.ofTx (t : Transaction) : Row :=
  ⟨t, none, none, none, none⟩

/-! ### Rule conditions over the batch (the masks of apply_rules)

These are the boolean masks of the three .loc updates in apply_rules,
expressed over the list of input transactions. -/

/-- Column small_txn of apply_rules: df.amount < 1000. -/
def smallTxn (t : Transaction) : Bool :=
  decide (t.amount < 1000)

/-- Per-sender count of small transactions:
df.groupby sender_id of small_txn, transform sum. -/
def smallCount (batch : List Transaction) (s : Nat) : Nat :=
  (batch.filter fun u => u.sender_id == s && smallTxn u).length

/-- Mask of rule 1 (structuring): the sender has at least 5 small
transactions in the batch and this transaction is itself small. -/
def rule1c (batch : List Transaction) (t : Transaction) : Bool :=
  decide (5 ≤ smallCount batch t.sender_id) && smallTxn t

/-- The high-risk location list of rule 2 in apply_rules. -/
def high_risk_locations : List String :=
  ["Offshore", "Garissa"]

/-- Mask of rule 2 (high-risk geography): df.location.isin of the high-risk
list. -/
def rule2c (t : Transaction) : Bool :=
  high_risk_locations.contains t.location

/-- Amount column restricted to one sender's transactions. -/
def senderAmounts (batch : List Transaction) (s : Nat) : List ℚ :=
  (batch.filter fun u => u.sender_id == s).map fun u => u.amount

/-- Mean amount of a sender: df.groupby sender_id of amount, transform
mean. -/
def senderMean (batch : List Transaction) (s : Nat) : ℚ :=
  (senderAmounts batch s).sum / ((batch.filter fun u => u.sender_id == s).length : ℚ)

/-- Mask of rule 3 (spike): df.amount > 5 * avg_amounts. -/
def rule3c (batch : List Transaction) (t : Transaction) : Bool :=
  decide (5 * senderMean batch t.sender_id < t.amount)

/-- Final value of the rule_flagged column: 1 when any of the three rule
masks holds, else the initial 0. -/
def ruleFlag (batch : List Transaction) (t : Transaction) : Nat :=
  if rule1c batch t || rule2c t || rule3c batch t then 1 else 0

/-- Row of the dataframe after apply_rules, in closed form. -/
def rulesRow (batch : List Transaction) (t : Transaction) : Row :=
  ⟨t, some (ruleFlag batch t), some (smallTxn t), none, none⟩

/-! ### The apply_rules stages, line by line -/

/-- Line 51 of src/app.py: the column rule_flagged is created, all zero. -/
def initFlags (rows : List Row) : List Row :=
  rows.map fun r => { r with rule_flagged := some 0 }

/-- Line 54: the column small_txn is created from amount < 1000. -/
def setSmall (rows : List Row) : List Row :=
  rows.map fun r => { r with small_txn := some (decide (r.tx.amount < 1000)) }

/-- Groupby-transform sum of the small_txn column over a sender, as the
structuring mask of line 55 reads it from the current dataframe. -/
def rowSmallSum (rows : List Row) (s : Nat) : Nat :=
  (rows.filter fun r => r.tx.sender_id == s && r.small_txn.getD false).length

/-- Lines 55 and 56: rule_flagged is set to 1 where the sender has at least
5 small transactions and the row is small. -/
def structuringStep (rows : List Row) : List Row :=
  rows.map fun r =>
    if decide (5 ≤ rowSmallSum rows r.tx.sender_id) && r.small_txn.getD false then
      { r with rule_flagged := some 1 }
    else r

/-- Line 59: rule_flagged is set to 1 where the location is high-risk. -/
def geoStep (rows : List Row) : List Row :=
  rows.map fun r =>
    if high_risk_locations.contains r.tx.location then
      { r with rule_flagged := some 1 }
    else r

/-- Groupby-transform mean of the amount column over a sender, as the spike
mask of line 62 reads it from the current dataframe. -/
def rowMean (rows : List Row) (s : Nat) : ℚ :=
  ((rows.filter fun r => r.tx.sender_id == s).map fun r => r.tx.amount).sum /
    (((rows.filter fun r => r.tx.sender_id == s).length : ℚ))

/-- Line 63: rule_flagged is set to 1 where the amount exceeds 5 times the
sender's mean amount. -/
def spikeStep (rows : List Row) : List Row :=
  rows.map fun r =>
    if decide (5 * rowMean rows r.tx.sender_id < r.tx.amount) then
      { r with rule_flagged := some 1 }
    else r

/-- The function apply_rules of src/app.py: the four column updates in
program order, applied to (and, through the in-place pandas updates, written
back into) the dataframe it is handed. -/
def apply_rules (rows : List Row) : List Row :=
  spikeStep (geoStep (structuringStep (setSmall (initFlags rows))))

/-! ### Closed form of apply_rules on a fresh dataframe -/

/-- Row shape after the first two column assignments. -/
def row1 (t : Transaction) : Row :=
  ⟨t, some 0, some (smallTxn t), none, none⟩

/-- Row shape after the structuring update. -/
def row2 (batch : List Transaction) (t : Transaction) : Row :=
  ⟨t, some (if rule1c batch t then 1 else 0), some (smallTxn t), none, none⟩

/-- Row shape after the geography update. -/
def row3 (batch : List Transaction) (t : Transaction) : Row :=
  ⟨t, some (if rule2c t then 1 else if rule1c batch t then 1 else 0),
    some (smallTxn t), none, none⟩

theorem row1_tx (t : Transaction) : (row1 t).tx = t := rfl

theorem row1_small (t : Transaction) : (row1 t).small_txn = some (smallTxn t) := rfl

theorem row2_tx (batch : List Transaction) (t : Transaction) :
    (row2 batch t).tx = t := rfl

theorem row2_small (batch : List Transaction) (t : Transaction) :
    (row2 batch t).small_txn = some (smallTxn t) := rfl

theorem row3_tx (batch : List Transaction) (t : Transaction) :
    (row3 batch t).tx = t := rfl

theorem rule1c_def (batch : List Transaction) (t : Transaction) :
    rule1c batch t = (decide (5 ≤ smallCount batch t.sender_id) && smallTxn t) := rfl

theorem setSmall_initFlags (batch : List Transaction) :
    setSmall (initFlags (batch.map Row.ofTx)) = batch.map row1 := by
  simp only [initFlags, setSmall, List.map_map]
  rfl

theorem rowSmallSum_row1 (batch : List Transaction) (s : Nat) :
    rowSmallSum (batch.map row1) s = smallCount batch s := by
  simp only [rowSmallSum, smallCount, List.filter_map, List.length_map]
  rfl

theorem structuringStep_row1 (batch : List Transaction) :
    structuringStep (batch.map row1) = batch.map (row2 batch) := by
  simp only [structuringStep, List.map_map]
  refine List.map_congr_left fun t _ => ?_
  simp only [Function.comp_apply, row1_tx, row1_small, Option.getD_some,
    rowSmallSum_row1, ← rule1c_def]
  cases h : rule1c batch t <;> simp [row1, row2, h]

theorem geoStep_row2 (batch : List Transaction) :
    geoStep (batch.map (row2 batch)) = batch.map (row3 batch) := by
  simp only [geoStep, List.map_map]
  refine List.map_congr_left fun t _ => ?_
  simp only [Function.comp_apply, row2_tx]
  cases h : rule2c t <;>
    simp [row2, row3, rule2c, high_risk_locations] at h ⊢ <;> simp [h]

theorem rowMean_row3 (batch : List Transaction) (s : Nat) :
    rowMean (batch.map (row3 batch)) s = senderMean batch s := by
  simp only [rowMean, senderMean, senderAmounts, List.filter_map,
    List.length_map, List.map_map]
  rfl

theorem ruleFlag_cases (batch : List Transaction) (t : Transaction) :
    ruleFlag batch t =
      (if rule3c batch t then 1 else
        if rule2c t then 1 else if rule1c batch t then 1 else 0) := by
  unfold ruleFlag
  cases rule1c batch t <;> cases rule2c t <;> cases rule3c batch t <;> simp

theorem spikeStep_row3 (batch : List Transaction) :
    spikeStep (batch.map (row3 batch)) = batch.map (rulesRow batch) := by
  simp only [spikeStep, List.map_map]
  refine List.map_congr_left fun t _ => ?_
  simp only [Function.comp_apply, row3_tx, rowMean_row3]
  have h3 : decide (5 * senderMean batch t.sender_id < t.amount) = rule3c batch t := rfl
  rw [h3, rulesRow, ruleFlag_cases]
  cases rule3c batch t <;> simp [row3]

/-- Closed form of apply_rules on a freshly generated dataframe: every row
keeps its transaction, gets small_txn, and gets rule_flagged equal to 1
exactly when one of the three rule masks holds. -/
theorem apply_rules_map (batch : List Transaction) :
    apply_rules (batch.map Row.ofTx) = batch.map (rulesRow batch) := by
  unfold apply_rules
  rw [setSmall_initFlags, structuringStep_row1, geoStep_row2, spikeStep_row3]

/-! ### The anomaly-detection stage, apply_ml

The function apply_ml of src/app.py delegates the anomaly scoring to an
IsolationForest from scikit-learn, constructed with contamination 0.02 and
random_state 42, whose implementation is not part of this repository. -/

/-- The contamination rate passed on line 73 of src/app.py. -/
def contamination : ℚ := 2 / 100

/-- Modelled from the spec: the anomaly score that the scikit-learn
IsolationForest (constructed on line 73 of src/app.py, its implementation
missing from this repository's source) assigns to a transaction.  Per
spec section 4.2 the score is a deterministic function of the seed and of
the transaction's features, lower meaning more anomalous; none of the
properties proved below depends on the particular score values, only on
this determinism and on the thresholding made explicit in mlFlagList, so a
simple deterministic seeded surrogate is used for the score itself. -/
def anomalyScore (seed : Nat) (t : Transaction) : ℚ :=
  (((seed + 37 * t.transaction_id + t.receiver_id) % 101 : Nat) : ℚ) / 101

/-- Comparison key for the score-ascending order: ties between equal scores
are broken by the position of the transaction in the batch, making the
order total. -/
def keyLe (p q : ℚ × Nat) : Bool :=
  decide (p.1 < q.1) || (decide (p.1 = q.1) && decide (p.2 ≤ q.2))

/-- Number of transactions to flag: round of contamination times batch
size. -/
def mlCut (c : ℚ) (n : Nat) : Nat :=
  (round (c * (n : ℚ))).toNat

/-- Modelled from the spec: positions of the transactions the forest flags.
Spec section 4.2, thresholding: sort all N transactions by score ascending
and flag the lowest round of c times N. -/
def mlTops (score : Transaction → ℚ) (c : ℚ) (batch : List Transaction) :
    List Nat :=
  (((batch.enum.map fun p => (score p.2, p.1)).mergeSort keyLe).take
    (mlCut c batch.length)).map fun p => p.2

/-- Modelled from the spec: the ml_flagged column, position by position, as
produced by fit_predict followed by the map sending 1 to 0 and -1 to 1 on
line 75 of src/app.py: 1 on the flagged (most anomalous) positions, 0
elsewhere. -/
def mlFlagList (score : Transaction → ℚ) (c : ℚ) (batch : List Transaction) :
    List Nat :=
  (List.range batch.length).map fun i => if i ∈ mlTops score c batch then 1 else 0

/-- The function apply_ml of src/app.py: writes the ml_flagged column from
the forest's verdicts and the suspicious column as the row-wise max of
rule_flagged and ml_flagged, into the dataframe it is handed. -/
def apply_ml (seed : Nat) (rows : List Row) : List Row :=
  (rows.zip (mlFlagList (anomalyScore seed) contamination (rows.map fun r => r.tx))).map
    fun p =>
      { p.1 with
        ml_flagged := some p.2
        suspicious := some (max (p.1.rule_flagged.getD 0) p.2) }

/-- The detection pipeline as run by main in src/app.py: apply_rules then
apply_ml on the generated batch.  The seed stands for the fixed
random_state 42 of line 73. -/
def detect (seed : Nat) (batch : List Transaction) : List Row :=
  apply_ml seed (apply_rules (batch.map Row.ofTx))

/-- Row of the dataframe after the full pipeline, in closed form: m is the
ml_flagged verdict for this row. -/
def finalRow (batch : List Transaction) (t : Transaction) (m : Nat) : Row :=
  ⟨t, some (ruleFlag batch t), some (smallTxn t), some m,
    some (max (ruleFlag batch t) m)⟩

theorem mlFlagList_length (score : Transaction → ℚ) (c : ℚ)
    (batch : List Transaction) :
    (mlFlagList score c batch).length = batch.length := by
  simp [mlFlagList]

theorem rulesRow_tx (batch : List Transaction) (t : Transaction) :
    (rulesRow batch t).tx = t := rfl

theorem map_tx_rulesRow (batch : List Transaction) :
    (batch.map (rulesRow batch)).map (fun r => r.tx) = batch := by
  rw [List.map_map]
  exact (List.map_congr_left fun t _ => rfl).trans batch.map_id

/-- Closed form of the full pipeline on a batch: each transaction is paired
with its ml verdict and mapped to its final row. -/
theorem detect_eq (seed : Nat) (batch : List Transaction) :
    detect seed batch =
      (batch.zip (mlFlagList (anomalyScore seed) contamination batch)).map
        fun p => finalRow batch p.1 p.2 := by
  unfold detect apply_ml
  rw [apply_rules_map, map_tx_rulesRow, List.zip_map_left, List.map_map]
  exact List.map_congr_left fun p _ => rfl

/-- Membership normal form for the pipeline output. -/
theorem mem_detect (seed : Nat) (batch : List Transaction) (r : Row)
    (hr : r ∈ detect seed batch) :
    ∃ t m, (t, m) ∈ batch.zip (mlFlagList (anomalyScore seed) contamination batch) ∧
      t ∈ batch ∧ m ∈ mlFlagList (anomalyScore seed) contamination batch ∧
      r = finalRow batch t m := by
  rw [detect_eq] at hr
  rcases List.mem_map.mp hr with ⟨⟨t, m⟩, hmem, hEq⟩
  exact ⟨t, m, hmem, (List.of_mem_zip hmem).1, (List.of_mem_zip hmem).2, hEq.symm⟩

theorem mlFlagList_mem (score : Transaction → ℚ) (c : ℚ)
    (batch : List Transaction) (m : Nat) (hm : m ∈ mlFlagList score c batch) :
    m = 0 ∨ m = 1 := by
  rcases List.mem_map.mp hm with ⟨i, _, hEq⟩
  by_cases h : i ∈ mlTops score c batch <;> simp [h] at hEq <;> omega

theorem ruleFlag_cases01 (batch : List Transaction) (t : Transaction) :
    ruleFlag batch t = 0 ∨ ruleFlag batch t = 1 := by
  unfold ruleFlag
  split <;> simp

/-! ### Counting the ml verdicts -/

theorem map_snd_scored (score : Transaction → ℚ) (batch : List Transaction) :
    (batch.enum.map fun p => (score p.2, p.1)).map Prod.snd =
      List.range batch.length := by
  rw [List.map_map, ← List.enum_map_fst batch]
  exact List.map_congr_left fun p _ => rfl

theorem mlTops_nodup (score : Transaction → ℚ) (c : ℚ)
    (batch : List Transaction) : (mlTops score c batch).Nodup := by
  have hperm :
      List.Perm (((batch.enum.map fun p => (score p.2, p.1)).mergeSort keyLe).map
        Prod.snd) (List.range batch.length) := by
    rw [← map_snd_scored score batch]
    exact (List.mergeSort_perm _ keyLe).map Prod.snd
  have hnd : (((batch.enum.map fun p => (score p.2, p.1)).mergeSort keyLe).map
      Prod.snd).Nodup := hperm.symm.nodup (List.nodup_range _)
  exact hnd.sublist ((List.take_sublist _ _).map Prod.snd)

theorem mlTops_subset (score : Transaction → ℚ) (c : ℚ)
    (batch : List Transaction) (i : Nat) (hi : i ∈ mlTops score c batch) :
    i ∈ List.range batch.length := by
  have hperm :
      List.Perm (((batch.enum.map fun p => (score p.2, p.1)).mergeSort keyLe).map
        Prod.snd) (List.range batch.length) := by
    rw [← map_snd_scored score batch]
    exact (List.mergeSort_perm _ keyLe).map Prod.snd
  have : i ∈ ((batch.enum.map fun p => (score p.2, p.1)).mergeSort keyLe).map
      Prod.snd :=
    ((List.take_sublist _ _).map Prod.snd).mem hi
  exact hperm.mem_iff.mp this

theorem mlTops_length (score : Transaction → ℚ) (c : ℚ)
    (batch : List Transaction) :
    (mlTops score c batch).length = min (mlCut c batch.length) batch.length := by
  have hlen : ((batch.enum.map fun p => (score p.2, p.1)).mergeSort keyLe).length =
      batch.length := by
    rw [(List.mergeSort_perm _ keyLe).length_eq, List.length_map, List.enum_length]
  rw [mlTops, List.length_map, List.length_take, hlen]

/-- For nodup lists, counting the members of a nodup sublist-like tops list
inside l gives the length of tops. -/
theorem countP_mem_eq_length {tops l : List Nat} (ht : tops.Nodup)
    (hsub : ∀ x ∈ tops, x ∈ l) (hl : l.Nodup) :
    l.countP (fun i => decide (i ∈ tops)) = tops.length := by
  rw [List.countP_eq_length_filter]
  refine List.Perm.length_eq ?_
  refine List.perm_of_nodup_nodup_toFinset_eq (hl.filter _) ht ?_
  ext a
  simp only [List.mem_toFinset, List.mem_filter, decide_eq_true_eq]
  exact ⟨fun h => h.2, fun h => ⟨hsub a h, h⟩⟩

theorem countP_mlFlagList (score : Transaction → ℚ) (c : ℚ)
    (batch : List Transaction) :
    (mlFlagList score c batch).countP (fun m => m == 1) =
      min (mlCut c batch.length) batch.length := by
  rw [mlFlagList, List.countP_map]
  have hcg : List.countP ((fun m => m == 1) ∘ fun i =>
        if i ∈ mlTops score c batch then 1 else 0) (List.range batch.length) =
      List.countP (fun i => decide (i ∈ mlTops score c batch))
        (List.range batch.length) := by
    refine List.countP_congr fun i _ => ?_
    by_cases h : i ∈ mlTops score c batch <;> simp [h]
  rw [hcg, countP_mem_eq_length (mlTops_nodup score c batch)
    (mlTops_subset score c batch) (List.nodup_range _), mlTops_length]

theorem round_contamination_nonneg (n : Nat) :
    0 ≤ round (contamination * (n : ℚ)) := by
  rw [round_eq, Int.le_floor]
  have hn : (0 : ℚ) ≤ (n : ℚ) := Nat.cast_nonneg n
  push_cast
  unfold contamination
  nlinarith

theorem round_contamination_le (n : Nat) :
    round (contamination * (n : ℚ)) ≤ (n : ℤ) := by
  rw [round_eq, ← Int.lt_add_one_iff, Int.floor_lt]
  have hn : (0 : ℚ) ≤ (n : ℚ) := Nat.cast_nonneg n
  push_cast
  unfold contamination
  nlinarith

theorem mlCut_le (n : Nat) : mlCut contamination n ≤ n := by
  rw [mlCut, Int.toNat_le]
  exact round_contamination_le n

theorem mlCut_cast (n : Nat) :
    ((mlCut contamination n : Nat) : ℤ) = round (contamination * (n : ℚ)) := by
  rw [mlCut]
  exact Int.toNat_of_nonneg (round_contamination_nonneg n)

theorem detect_countP_ml (seed : Nat) (batch : List Transaction) :
    (detect seed batch).countP (fun r => r.ml_flagged == some 1) =
      (mlFlagList (anomalyScore seed) contamination batch).countP
        (fun m => m == 1) := by
  rw [detect_eq, List.countP_map]
  have h1 : List.countP ((fun r => r.ml_flagged == some 1) ∘ fun p =>
        finalRow batch p.1 p.2)
        (batch.zip (mlFlagList (anomalyScore seed) contamination batch)) =
      List.countP ((fun m => m == 1) ∘ Prod.snd)
        (batch.zip (mlFlagList (anomalyScore seed) contamination batch)) := by
    refine List.countP_congr fun p _ => ?_
    simp [finalRow]
  rw [h1, ← List.countP_map, List.map_snd_zip]
  rw [mlFlagList_length]

/-! ### Claim C5: contamination semantics -/

/-- C5: for every batch of N transactions with N at least 50, the number of
transactions the pipeline marks ml_flagged is within plus or minus 1 of
round of contamination times N, contamination being the 0.02 of line 73. -/
theorem contamination_bound (seed : Nat) (batch : List Transaction)
    (_h : 50 ≤ batch.length) :
    ((((detect seed batch).countP fun r => r.ml_flagged == some 1) : ℤ) -
      round (contamination * (batch.length : ℚ))).natAbs ≤ 1 := by
  rw [detect_countP_ml, countP_mlFlagList,
    min_eq_left (mlCut_le batch.length), mlCut_cast]
  simp

/-- Concrete batch of 50 identical-amount transactions to distinct senders. -/
def batch50 : List Transaction :=
  (List.range 50).map fun i => ⟨i + 1, i, 9000 + i, 1000, 0, "Nairobi"⟩

theorem contamination_bound_witness :
    50 ≤ batch50.length ∧
      ((((detect 42 batch50).countP fun r => r.ml_flagged == some 1) : ℤ) -
        round (contamination * (batch50.length : ℚ))).natAbs ≤ 1 :=
  ⟨by simp [batch50], contamination_bound 42 batch50 (by simp [batch50])⟩

/-! ### Claim C6: determinism -/

/-- C6: for a fixed input batch and a fixed seed (the random_state of line
73), two runs of the detection pipeline produce identical verdicts; the
embedded pipeline is a pure function of seed and batch, so equal inputs give
equal outputs. -/
theorem detect_deterministic (s₁ s₂ : Nat) (b₁ b₂ : List Transaction)
    (hs : s₁ = s₂) (hb : b₁ = b₂) : detect s₁ b₁ = detect s₂ b₂ := by
  subst hs; subst hb; rfl

/-- Concrete ordinary transaction reused by several witnesses. -/
def exTx : Transaction :=
  ⟨1, 1001, 2002, 500, 0, "Nairobi"⟩

theorem detect_deterministic_witness :
    detect 42 [exTx] = detect 42 [exTx] :=
  detect_deterministic 42 42 [exTx] [exTx] rfl rfl

/-! ### Claim C8: empty batch -/

/-- C8: the pipeline on the empty batch returns the empty verdict table and
raises no error (the embedded pipeline is total). -/
theorem detect_empty (seed : Nat) : detect seed [] = [] := rfl

/-! ### Claim C1: structuring rule -/

/-- C1: over the rows the dataframe holds after apply_rules, if a row's
sender has at least 5 small transactions in the batch and the row itself is
small, the structuring mask fires and the row ends with rule_flagged 1;
rows with amount at least 1000 are never matched by the structuring mask,
whatever their sender; and a sender with exactly 4 small transactions has
the structuring mask fire on none of its rows. -/
theorem rule1_structuring (batch : List Transaction) (r : Row)
    (hr : r ∈ apply_rules (batch.map Row.ofTx)) :
    (5 ≤ smallCount batch r.tx.sender_id → r.tx.amount < 1000 →
      rule1c batch r.tx = true ∧ r.rule_flagged = some 1) ∧
    (1000 ≤ r.tx.amount → rule1c batch r.tx = false) ∧
    (smallCount batch r.tx.sender_id = 4 → rule1c batch r.tx = false) := by
  rw [apply_rules_map] at hr
  rcases List.mem_map.mp hr with ⟨t, _ht, rfl⟩
  simp only [rulesRow_tx]
  refine ⟨fun h5 hlt => ?_, fun hge => ?_, fun h4 => ?_⟩
  · have h1 : rule1c batch t = true := by
      simp [rule1c, smallTxn, h5, hlt]
    exact ⟨h1, by simp [rulesRow, ruleFlag, h1]⟩
  · simp [rule1c, smallTxn, not_lt.mpr hge]
  · simp [rule1c, h4]

/-- Batch of five small transactions from one sender. -/
def batch5 : List Transaction :=
  [⟨1, 1001, 2001, 500, 0, "Nairobi"⟩, ⟨2, 1001, 2002, 500, 0, "Nairobi"⟩,
    ⟨3, 1001, 2003, 500, 0, "Nairobi"⟩, ⟨4, 1001, 2004, 500, 0, "Nairobi"⟩,
    ⟨5, 1001, 2005, 500, 0, "Nairobi"⟩]

/-- First transaction of batch5. -/
def tx5 : Transaction := ⟨1, 1001, 2001, 500, 0, "Nairobi"⟩

theorem rule1_structuring_witness :
    rulesRow batch5 tx5 ∈ apply_rules (batch5.map Row.ofTx) ∧
      5 ≤ smallCount batch5 (rulesRow batch5 tx5).tx.sender_id ∧
      (rulesRow batch5 tx5).tx.amount < 1000 ∧
      rule1c batch5 (rulesRow batch5 tx5).tx = true ∧
      (rulesRow batch5 tx5).rule_flagged = some 1 := by
  have hmem : rulesRow batch5 tx5 ∈ apply_rules (batch5.map Row.ofTx) := by
    rw [apply_rules_map]
    exact List.mem_map_of_mem _ (by simp [batch5, tx5])
  have h5 : 5 ≤ smallCount batch5 (rulesRow batch5 tx5).tx.sender_id := by decide
  have hlt : (rulesRow batch5 tx5).tx.amount < 1000 := by decide
  have hc := (rule1_structuring batch5 (rulesRow batch5 tx5) hmem).1 h5 hlt
  exact ⟨hmem, h5, hlt, hc.1, hc.2⟩

/-! ### Claim C2: spike rule -/

/-- C2: over the rows the dataframe holds after apply_rules, the spike mask
fires exactly when the amount strictly exceeds 5 times the sender's mean
amount, and a firing mask forces rule_flagged 1; a row whose amount equals
exactly 5 times the sender's mean is not matched; and a sender with a
single transaction of positive amount is never matched by the spike mask. -/
theorem rule3_spike (batch : List Transaction) (r : Row)
    (hr : r ∈ apply_rules (batch.map Row.ofTx)) :
    (rule3c batch r.tx = true ↔ 5 * senderMean batch r.tx.sender_id < r.tx.amount) ∧
    (rule3c batch r.tx = true → r.rule_flagged = some 1) ∧
    (r.tx.amount = 5 * senderMean batch r.tx.sender_id → rule3c batch r.tx = false) ∧
    ((batch.filter fun u => u.sender_id == r.tx.sender_id).length = 1 →
      0 < r.tx.amount → rule3c batch r.tx = false) := by
  rw [apply_rules_map] at hr
  rcases List.mem_map.mp hr with ⟨t, ht, rfl⟩
  simp only [rulesRow_tx]
  refine ⟨by simp [rule3c], fun h3 => by simp [rulesRow, ruleFlag, h3], fun hEq => ?_,
    fun hlen hpos => ?_⟩
  · have : ¬ (5 * senderMean batch t.sender_id < t.amount) := by
      rw [hEq]
      exact lt_irrefl _
    simpa [rule3c] using this
  · have hmemf : t ∈ batch.filter fun u => u.sender_id == t.sender_id :=
      List.mem_filter.mpr ⟨ht, by simp⟩
    rcases List.length_eq_one.mp hlen with ⟨a, ha⟩
    have hat : a = t := by
      rw [ha] at hmemf
      have h' : t = a := by simpa using hmemf
      exact h'.symm
    subst hat
    have hmean : senderMean batch a.sender_id = a.amount := by
      rw [senderMean, senderAmounts, ha]
      simp
    have : ¬ (5 * senderMean batch a.sender_id < a.amount) := by
      rw [hmean]
      nlinarith
    simpa [rule3c] using this

/-- A transaction whose sender appears once in its batch. -/
def txSolo : Transaction := ⟨7, 3003, 4004, 500, 0, "Nairobi"⟩

theorem rule3_spike_witness :
    rulesRow [txSolo] txSolo ∈ apply_rules ([txSolo].map Row.ofTx) ∧
      ([txSolo].filter fun u =>
        u.sender_id == (rulesRow [txSolo] txSolo).tx.sender_id).length = 1 ∧
      0 < (rulesRow [txSolo] txSolo).tx.amount ∧
      rule3c [txSolo] (rulesRow [txSolo] txSolo).tx = false := by
  have hmem : rulesRow [txSolo] txSolo ∈ apply_rules ([txSolo].map Row.ofTx) := by
    rw [apply_rules_map]
    exact List.mem_map_of_mem _ (by simp)
  have hlen : ([txSolo].filter fun u =>
      u.sender_id == (rulesRow [txSolo] txSolo).tx.sender_id).length = 1 := by decide
  have hpos : 0 < (rulesRow [txSolo] txSolo).tx.amount := by decide
  exact ⟨hmem, hlen, hpos,
    (rule3_spike [txSolo] (rulesRow [txSolo] txSolo) hmem).2.2.2 hlen hpos⟩

/-! ### Evaluation of the pipeline on one-transaction batches -/

theorem mlCut_one : mlCut contamination 1 = 0 := by
  have hfl : round (contamination * ((1 : Nat) : ℚ)) = 0 := by
    rw [round_eq]
    have : ⌊contamination * ((1 : Nat) : ℚ) + 1 / 2⌋ = 0 := by
      rw [Int.floor_eq_zero_iff]
      constructor <;> norm_num [contamination]
    simpa using this
  rw [mlCut, hfl]
  rfl

theorem mlTops_one (score : Transaction → ℚ) (t : Transaction) :
    mlTops score contamination [t] = [] := by
  rw [mlTops]
  have h1 : ([t] : List Transaction).length = 1 := rfl
  rw [h1, mlCut_one]
  simp

theorem mlFlagList_one (score : Transaction → ℚ) (t : Transaction) :
    mlFlagList score contamination [t] = [0] := by
  rw [mlFlagList, mlTops_one]
  simp

/-- On a one-transaction batch the pipeline returns the single final row
with ml verdict 0. -/
theorem detect_singleton (seed : Nat) (t : Transaction) :
    detect seed [t] = [finalRow [t] t 0] := by
  rw [detect_eq, mlFlagList_one]
  rfl

/-! ### Claim C3: high-risk geography rule -/

/-- C3: every row of the pipeline output whose location is Offshore or
Garissa has rule_flagged 1, unconditionally. -/
theorem rule2_geography (seed : Nat) (batch : List Transaction) (r : Row)
    (hr : r ∈ detect seed batch)
    (hloc : r.tx.location = "Offshore" ∨ r.tx.location = "Garissa") :
    r.rule_flagged = some 1 := by
  rcases mem_detect seed batch r hr with ⟨t, m, _, _, _, rfl⟩
  have h2 : rule2c t = true := by
    simp only [finalRow] at hloc
    rcases hloc with h | h <;> simp [rule2c, high_risk_locations, h]
  simp [finalRow, ruleFlag, h2]

/-- An offshore transaction. -/
def txOff : Transaction := ⟨1, 1001, 2002, 5000, 0, "Offshore"⟩

theorem rule2_geography_witness :
    finalRow [txOff] txOff 0 ∈ detect 42 [txOff] ∧
      (finalRow [txOff] txOff 0).tx.location = "Offshore" ∧
      (finalRow [txOff] txOff 0).rule_flagged = some 1 := by
  have hmem : finalRow [txOff] txOff 0 ∈ detect 42 [txOff] := by
    rw [detect_singleton]
    simp
  exact ⟨hmem, rfl, rule2_geography 42 [txOff] (finalRow [txOff] txOff 0) hmem
    (Or.inl rfl)⟩

/-! ### Claim C4: verdict combiner -/

/-- C4: every row of the pipeline output has its suspicious flag equal to
the max of rule_flagged and ml_flagged, and suspicious is 1 exactly when
rule_flagged is 1 or ml_flagged is 1; in particular it is never 1 when both
are 0. -/
theorem combiner_or (seed : Nat) (batch : List Transaction) (r : Row)
    (hr : r ∈ detect seed batch) :
    r.suspicious = some (max (r.rule_flagged.getD 0) (r.ml_flagged.getD 0)) ∧
    (r.suspicious = some 1 ↔ (r.rule_flagged = some 1 ∨ r.ml_flagged = some 1)) := by
  rcases mem_detect seed batch r hr with ⟨t, m, _, _, hm, rfl⟩
  have hm01 := mlFlagList_mem _ _ _ _ hm
  have hr01 := ruleFlag_cases01 batch t
  constructor
  · simp [finalRow]
  · rcases hr01 with h | h <;> rcases hm01 with h2 | h2 <;>
      simp [finalRow, h, h2]

/-- An ordinary transaction for the combiner witness. -/
def txCmb : Transaction := ⟨8, 1111, 2222, 750, 0, "Kisumu"⟩

theorem combiner_or_witness :
    finalRow [txCmb] txCmb 0 ∈ detect 42 [txCmb] ∧
      (finalRow [txCmb] txCmb 0).suspicious =
        some (max ((finalRow [txCmb] txCmb 0).rule_flagged.getD 0)
          ((finalRow [txCmb] txCmb 0).ml_flagged.getD 0)) ∧
      ((finalRow [txCmb] txCmb 0).suspicious = some 1 ↔
        ((finalRow [txCmb] txCmb 0).rule_flagged = some 1 ∨
          (finalRow [txCmb] txCmb 0).ml_flagged = some 1)) := by
  have hmem : finalRow [txCmb] txCmb 0 ∈ detect 42 [txCmb] := by
    rw [detect_singleton]
    simp
  have hc := combiner_or 42 [txCmb] (finalRow [txCmb] txCmb 0) hmem
  exact ⟨hmem, hc.1, hc.2⟩

/-! ### Claim C10: flag-domain invariant -/

/-- C10: every row of the pipeline output carries all three flags, each
either 0 or 1, and the suspicious flag (the row-wise max of line 76)
coincides with the logical or of rule_flagged and ml_flagged. -/
theorem flag_domain (seed : Nat) (batch : List Transaction) (r : Row)
    (hr : r ∈ detect seed batch) :
    (r.rule_flagged = some 0 ∨ r.rule_flagged = some 1) ∧
    (r.ml_flagged = some 0 ∨ r.ml_flagged = some 1) ∧
    (r.suspicious = some 0 ∨ r.suspicious = some 1) ∧
    r.suspicious =
      some (if r.rule_flagged = some 1 ∨ r.ml_flagged = some 1 then 1 else 0) := by
  rcases mem_detect seed batch r hr with ⟨t, m, _, _, hm, rfl⟩
  have hm01 := mlFlagList_mem _ _ _ _ hm
  have hr01 := ruleFlag_cases01 batch t
  rcases hr01 with h | h <;> rcases hm01 with h2 | h2 <;>
    refine ⟨?_, ?_, ?_, ?_⟩ <;> simp [finalRow, h, h2]

/-- An ordinary transaction for the flag-domain witness. -/
def txDom : Transaction := ⟨9, 3333, 4444, 1500, 0, "Mombasa"⟩

theorem flag_domain_witness :
    finalRow [txDom] txDom 0 ∈ detect 42 [txDom] ∧
      ((finalRow [txDom] txDom 0).rule_flagged = some 0 ∨
        (finalRow [txDom] txDom 0).rule_flagged = some 1) ∧
      ((finalRow [txDom] txDom 0).ml_flagged = some 0 ∨
        (finalRow [txDom] txDom 0).ml_flagged = some 1) ∧
      ((finalRow [txDom] txDom 0).suspicious = some 0 ∨
        (finalRow [txDom] txDom 0).suspicious = some 1) ∧
      (finalRow [txDom] txDom 0).suspicious =
        some (if (finalRow [txDom] txDom 0).rule_flagged = some 1 ∨
          (finalRow [txDom] txDom 0).ml_flagged = some 1 then 1 else 0) := by
  have hmem : finalRow [txDom] txDom 0 ∈ detect 42 [txDom] := by
    rw [detect_singleton]
    simp
  have hc := flag_domain 42 [txDom] (finalRow [txDom] txDom 0) hmem
  exact ⟨hmem, hc.1, hc.2.1, hc.2.2.1, hc.2.2.2⟩

/-! ### Claim C7: the batch object is mutated, its transaction fields kept -/

theorem map_tx_initFlags (rows : List Row) :
    (initFlags rows).map (fun r => r.tx) = rows.map (fun r => r.tx) := by
  rw [initFlags, List.map_map]
  rfl

theorem map_tx_setSmall (rows : List Row) :
    (setSmall rows).map (fun r => r.tx) = rows.map (fun r => r.tx) := by
  rw [setSmall, List.map_map]
  rfl

theorem map_tx_structuringStep (rows : List Row) :
    (structuringStep rows).map (fun r => r.tx) = rows.map (fun r => r.tx) := by
  rw [structuringStep, List.map_map]
  refine List.map_congr_left fun r _ => ?_
  simp only [Function.comp_apply]
  split <;> rfl

theorem map_tx_geoStep (rows : List Row) :
    (geoStep rows).map (fun r => r.tx) = rows.map (fun r => r.tx) := by
  rw [geoStep, List.map_map]
  refine List.map_congr_left fun r _ => ?_
  simp only [Function.comp_apply]
  split <;> rfl

theorem map_tx_spikeStep (rows : List Row) :
    (spikeStep rows).map (fun r => r.tx) = rows.map (fun r => r.tx) := by
  rw [spikeStep, List.map_map]
  refine List.map_congr_left fun r _ => ?_
  simp only [Function.comp_apply]
  split <;> rfl

/-- The apply_rules stage rewrites no transaction column: the dataframe
holds the same transactions in the same order afterwards. -/
theorem map_tx_apply_rules (rows : List Row) :
    (apply_rules rows).map (fun r => r.tx) = rows.map (fun r => r.tx) := by
  rw [apply_rules, map_tx_spikeStep, map_tx_geoStep, map_tx_structuringStep,
    map_tx_setSmall, map_tx_initFlags]

/-- The apply_ml stage rewrites no transaction column either. -/
theorem map_tx_apply_ml (seed : Nat) (rows : List Row) :
    (apply_ml seed rows).map (fun r => r.tx) = rows.map (fun r => r.tx) := by
  rw [apply_ml, List.map_map]
  have hlen : rows.length ≤
      (mlFlagList (anomalyScore seed) contamination (rows.map fun r => r.tx)).length := by
    rw [mlFlagList_length, List.length_map]
  have h2 : ((rows.zip (mlFlagList (anomalyScore seed) contamination
        (rows.map fun r => r.tx))).map Prod.fst).map (fun r => r.tx) =
      (rows.zip (mlFlagList (anomalyScore seed) contamination
        (rows.map fun r => r.tx))).map ((fun r => r.tx) ∘ Prod.fst) :=
    List.map_map _ _ _
  rw [List.map_fst_zip _ _ hlen] at h2
  exact (List.map_congr_left fun p _ => rfl).trans h2.symm

theorem rule_flagged_isSome_apply_rules (rows : List Row) (r : Row)
    (hr : r ∈ apply_rules rows) : r.rule_flagged.isSome = true := by
  have h0 : ∀ x ∈ setSmall (initFlags rows), x.rule_flagged.isSome = true := by
    intro x hx
    rw [setSmall, initFlags, List.map_map] at hx
    rcases List.mem_map.mp hx with ⟨y, _, rfl⟩
    rfl
  have h1 : ∀ x ∈ structuringStep (setSmall (initFlags rows)),
      x.rule_flagged.isSome = true := by
    intro x hx
    rw [structuringStep] at hx
    rcases List.mem_map.mp hx with ⟨y, hy, rfl⟩
    split
    · rfl
    · exact h0 y hy
  have h2 : ∀ x ∈ geoStep (structuringStep (setSmall (initFlags rows))),
      x.rule_flagged.isSome = true := by
    intro x hx
    rw [geoStep] at hx
    rcases List.mem_map.mp hx with ⟨y, hy, rfl⟩
    split
    · rfl
    · exact h1 y hy
  rw [apply_rules, spikeStep] at hr
  rcases List.mem_map.mp hr with ⟨y, hy, rfl⟩
  split
  · rfl
  · exact h2 y hy

/-- A fresh one-row dataframe, as handed to apply_rules by main. -/
def txFresh : Transaction := ⟨9, 5005, 6006, 700, 0, "Mombasa"⟩

/-- The dataframe handed to the pipeline in the counterexample. -/
def freshDf : List Row := [Row.ofTx txFresh]

/-- C7 counterexample: apply_rules writes its flag columns into the very
dataframe it is handed (pandas in-place column assignment), so the post-state
of the batch object differs from its pre-state; the flags are not produced in
a fresh structure leaving the input untouched. -/
theorem mutation_counterexample : apply_rules freshDf ≠ freshDf := by
  have h : apply_rules freshDf = [rulesRow [txFresh] txFresh] := by
    have h0 : freshDf = [txFresh].map Row.ofTx := rfl
    rw [h0, apply_rules_map]
    rfl
  rw [h]
  intro hEq
  simp [rulesRow, Row.ofTx, freshDf] at hEq

/-- C7 amended: the pipeline stages keep every transaction's six input
fields and the row order (no row is added, dropped or rewritten in its
transaction columns), but they write the flag columns into the same
dataframe they are handed rather than into a fresh id-keyed structure, and
after both stages every row carries all three flags. -/
theorem frame_preservation (seed : Nat) (rows : List Row) :
    (apply_rules rows).map (fun r => r.tx) = rows.map (fun r => r.tx) ∧
    (apply_ml seed rows).map (fun r => r.tx) = rows.map (fun r => r.tx) ∧
    (apply_ml seed (apply_rules rows)).all
      (fun r => r.rule_flagged.isSome && r.ml_flagged.isSome &&
        r.suspicious.isSome) = true := by
  refine ⟨map_tx_apply_rules rows, map_tx_apply_ml seed rows, ?_⟩
  rw [List.all_eq_true]
  intro r hr
  rw [apply_ml] at hr
  rcases List.mem_map.mp hr with ⟨p, hp, rfl⟩
  have hfst : p.1 ∈ apply_rules rows := (List.of_mem_zip hp).1
  have hrule := rule_flagged_isSome_apply_rules rows p.1 hfst
  simp [hrule]

/-! ### Claim C9: invalid transactions are not rejected -/

/-- A transaction with a non-positive amount. -/
def txBad : Transaction := ⟨1, 7007, 8008, -5, 0, "Nairobi"⟩

/-- C9 counterexample: a batch holding a transaction of negative amount is
not rejected; the pipeline runs to completion and hands the invalid
transaction a full verdict row, so verdicts are produced for a malformed
batch. -/
theorem invalid_counterexample :
    txBad.amount ≤ 0 ∧ detect 42 [txBad] = [finalRow [txBad] txBad 0] ∧
      (finalRow [txBad] txBad 0).suspicious.isSome = true := by
  refine ⟨by decide, detect_singleton 42 txBad, rfl⟩

/-- C9 amended: the pipeline performs no input validation at all: a batch
holding a transaction of non-positive amount is processed like any other,
every transaction keeps its place and receives a verdict, and no error
path exists. -/
theorem no_validation (seed : Nat) (batch : List Transaction)
    (_h : ∃ t ∈ batch, t.amount ≤ 0) :
    (detect seed batch).map (fun r => r.tx) = batch ∧
    (detect seed batch).length = batch.length := by
  have hmap : (detect seed batch).map (fun r => r.tx) = batch := by
    rw [detect_eq, List.map_map]
    have hlen : batch.length ≤
        (mlFlagList (anomalyScore seed) contamination batch).length := by
      rw [mlFlagList_length]
    have h3 : (batch.zip (mlFlagList (anomalyScore seed) contamination
          batch)).map ((fun r => r.tx) ∘ fun p => finalRow batch p.1 p.2) =
        (batch.zip (mlFlagList (anomalyScore seed) contamination
          batch)).map Prod.fst :=
      List.map_congr_left fun p _ => rfl
    rw [h3, List.map_fst_zip _ _ hlen]
  refine ⟨hmap, ?_⟩
  have := congrArg List.length hmap
  rwa [List.length_map] at this

theorem no_validation_witness :
    (∃ t ∈ [txBad], t.amount ≤ 0) ∧
      (detect 42 [txBad]).map (fun r => r.tx) = [txBad] ∧
      (detect 42 [txBad]).length = [txBad].length := by
  have hex : ∃ t ∈ [txBad], t.amount ≤ 0 := ⟨txBad, by simp, by decide⟩
  exact ⟨hex, (no_validation 42 [txBad] hex).1, (no_validation 42 [txBad] hex).2⟩
